import Mathlib

/-!
A verification development for the in-memory mock Firestore client library
(`mockFirestore.ts`).  The TypeScript source is embedded shallowly: JS `Map`s
become insertion-ordered association lists, JS objects become ordered field
lists, the module-level mutable `store` is threaded explicitly, thrown errors
become an explicit `error` component, and listener notification becomes an
explicit list of emitted events.
-/

namespace MockFirestore

/-- A JSON-like document field value, as stored by the mock Firestore:
string, number, boolean, null, nested object, ordered list, or Timestamp
(a `{seconds, nanoseconds}` pair).  Numbers are modelled as integers: every
number the application stores is integral. -/
inductive Value where
  | vNull : Value
  | vBool (b : Bool) : Value
  | vNum (n : Int) : Value
  | vStr (s : String) : Value
  | vArr (elems : List Value) : Value
  | vObj (fields : List (String × Value)) : Value
  | vTime (seconds : Int) (nanoseconds : Int) : Value
  deriving Repr

/-- A document's fields: an ordered association list of field name to value,
mirroring a JS object's insertion-ordered own properties. -/
abbrev DocData := List (String × Value)

mutual

/-- The source's recursive `clone`: a `Timestamp` is rebuilt field-by-field,
an array is cloned element-wise, a plain object key-by-key, and any other
value is returned as-is. -/
def clone : Value → Value
  | .vNull => .vNull
  | .vBool b => .vBool b
  | .vNum n => .vNum n
  | .vStr s => .vStr s
  | .vTime s n => .vTime s n
  | .vArr elems => .vArr (cloneList elems)
  | .vObj fields => .vObj (cloneFields fields)

/-- Element-wise clone of an array value's items. -/
def cloneList : List Value → List Value
  | [] => []
  | v :: rest => clone v :: cloneList rest

/-- Key-by-key clone of an object's entries (`Object.entries` order). -/
def cloneFields : List (String × Value) → List (String × Value)
  | [] => []
  | (k, v) :: rest => (k, clone v) :: cloneFields rest

end

mutual

theorem clone_eq : ∀ v : Value, clone v = v
  | .vNull => rfl
  | .vBool _ => rfl
  | .vNum _ => rfl
  | .vStr _ => rfl
  | .vTime _ _ => rfl
  | .vArr elems => by rw [clone, cloneList_eq]
  | .vObj fields => by rw [clone, cloneFields_eq]

theorem cloneList_eq : ∀ elems : List Value, cloneList elems = elems
  | [] => rfl
  | v :: rest => by rw [cloneList, clone_eq, cloneList_eq]

theorem cloneFields_eq : ∀ fields : List (String × Value), cloneFields fields = fields
  | [] => rfl
  | (k, v) :: rest => by rw [cloneFields, clone_eq, cloneFields_eq]

end

/-! ### Insertion-ordered maps

A JS `Map` preserves insertion order; `set` on an existing key updates the
value in place (keeping the key's position) and `set` on a fresh key appends.
We model a `Map` as an association list without duplicate keys (all the
operations below preserve key-uniqueness, and every map the model builds
starts from `[]`). -/

/-- `Map.prototype.get` (first matching key; `none` when absent). -/
def jsGet {V : Type} : List (String × V) → String → Option V
  | [], _ => none
  | (k, v) :: rest, key => if k = key then some v else jsGet rest key

/-- `Map.prototype.has`. -/
def jsHas {V : Type} (m : List (String × V)) (key : String) : Bool :=
  (jsGet m key).isSome

/-- `Map.prototype.set`: update in place when the key is present, else append. -/
def jsSet {V : Type} : List (String × V) → String → V → List (String × V)
  | [], key, v => [(key, v)]
  | (k, w) :: rest, key, v =>
    if k = key then (k, v) :: rest else (k, w) :: jsSet rest key v

/-- `Map.prototype.delete` (drops the key's entry when present). -/
def jsDelete {V : Type} : List (String × V) → String → List (String × V)
  | [], _ => []
  | (k, w) :: rest, key =>
    if k = key then rest else (k, w) :: jsDelete rest key

theorem jsGet_jsSet_self {V : Type} (m : List (String × V)) (key : String) (v : V) :
    jsGet (jsSet m key v) key = some v := by
  induction m with
  | nil => simp [jsSet, jsGet]
  | cons kv rest ih =>
    obtain ⟨k, w⟩ := kv
    by_cases h : k = key <;> simp [jsSet, jsGet, h, ih]

theorem jsGet_jsSet_other {V : Type} (m : List (String × V)) (key key' : String) (v : V)
    (h : key ≠ key') : jsGet (jsSet m key v) key' = jsGet m key' := by
  induction m with
  | nil => simp [jsSet, jsGet, h]
  | cons kv rest ih =>
    obtain ⟨k, w⟩ := kv
    by_cases hk : k = key
    · subst hk; simp [jsSet, jsGet, h, ih]
    · by_cases hk' : k = key' <;> simp [jsSet, jsGet, hk, hk', Ne.symm h, ih]

/-- Keys after `set`: unchanged when the key was present, appended otherwise. -/
theorem keys_jsSet {V : Type} (m : List (String × V)) (key : String) (v : V) :
    (jsSet m key v).map Prod.fst =
      (if jsHas m key then m.map Prod.fst else m.map Prod.fst ++ [key]) := by
  induction m with
  | nil => simp [jsSet, jsHas, jsGet]
  | cons kv rest ih =>
    obtain ⟨k, w⟩ := kv
    by_cases h : k = key
    · subst h; simp [jsSet, jsHas, jsGet]
    · simp only [jsSet, if_neg h, List.map_cons, jsHas, jsGet, if_neg h] at *
      rw [ih]
      by_cases hr : jsHas rest key <;> simp [jsHas] at hr <;> simp [hr]

/-! ### Timestamp

`class Timestamp { seconds; nanoseconds; ... }`.  JS numbers are modelled as
rationals where a fractional value can occur (the milliseconds argument of
`fromMillis`) and as integers where every construction in the source produces
an integer (`Math.floor` results, so the `seconds`/`nanoseconds` fields). -/

structure Timestamp where
  seconds : Int
  nanoseconds : Int
  deriving Repr, DecidableEq

namespace Timestamp

/-- `fromMillis`: `seconds = Math.floor(ms / 1000)`,
`nanoseconds = Math.floor((ms - seconds * 1000) * 1e6)`. -/
def fromMillis (milliseconds : ℚ) : Timestamp :=
  let seconds : Int := ⌊milliseconds / 1000⌋
  let nanoseconds : Int := ⌊(milliseconds - (seconds : ℚ) * 1000) * 1000000⌋
  ⟨seconds, nanoseconds⟩

/-- `toMillis`: `seconds * 1000 + Math.floor(nanoseconds / 1e6)` (JS `/` is
real division, floored by `Math.floor`). -/
def toMillis (t : Timestamp) : Int :=
  t.seconds * 1000 + ⌊(t.nanoseconds : ℚ) / 1000000⌋

end Timestamp

/-- Flooring a scaled floor back down: `⌊⌊r * 10^6⌋ / 10^6⌋ = ⌊r⌋`. -/
theorem floor_floor_mul_div (r : ℚ) :
    ⌊((⌊r * 1000000⌋ : ℚ) / 1000000)⌋ = ⌊r⌋ := by
  have hpos : (0 : ℚ) < 1000000 := by norm_num
  rw [Int.floor_eq_iff]
  constructor
  · rw [le_div_iff₀ hpos]
    have h1 : (⌊r⌋ : ℚ) * 1000000 ≤ r * 1000000 :=
      mul_le_mul_of_nonneg_right (Int.floor_le r) (le_of_lt hpos)
    have h2 : ((⌊r⌋ * 1000000 : ℤ) : ℚ) ≤ r * 1000000 := by push_cast; exact h1
    have h3 : (⌊r⌋ * 1000000 : ℤ) ≤ ⌊r * 1000000⌋ := Int.le_floor.mpr h2
    calc (⌊r⌋ : ℚ) * 1000000 = ((⌊r⌋ * 1000000 : ℤ) : ℚ) := by push_cast; ring
    _ ≤ (⌊r * 1000000⌋ : ℚ) := by exact_mod_cast h3
  · rw [div_lt_iff₀ hpos]
    have h1 : (⌊r * 1000000⌋ : ℚ) ≤ r * 1000000 := Int.floor_le _
    have h2 : r * 1000000 < ((⌊r⌋ : ℚ) + 1) * 1000000 :=
      mul_lt_mul_of_pos_right (Int.lt_floor_add_one r) hpos
    calc (⌊r * 1000000⌋ : ℚ) ≤ r * 1000000 := h1
    _ < ((⌊r⌋ : ℚ) + 1) * 1000000 := h2

/-! ### Path splitting

`splitDocPath`: `path.split("/")` filtered of empty segments, the trailing
segment popped as the document id (empty string when there is none), the rest
rejoined with `/` as the collection path.  JS `String.split` with the one-char
separator `/` is modelled character-recursively on the string's data. -/

/-- JS `str.split("/")` on a character list: splits at every `/`, keeping
empty segments (so `"".split("/") = [""]` and `"/a".split("/") = ["", "a"]`). -/
def splitSlash : List Char → List (List Char)
  | [] => [[]]
  | c :: rest =>
    if c = '/' then [] :: splitSlash rest
    else
      match splitSlash rest with
      | [] => [[c]]
      | s :: ss => (c :: s) :: ss

theorem splitSlash_ne_nil (l : List Char) : splitSlash l ≠ [] := by
  cases l with
  | nil => simp [splitSlash]
  | cons c rest =>
    by_cases h : c = '/'
    · simp [splitSlash, h]
    · simp only [splitSlash, if_neg h]
      cases splitSlash rest <;> simp

theorem splitSlash_slash_cons (l : List Char) :
    splitSlash ('/' :: l) = [] :: splitSlash l := by
  simp [splitSlash]

theorem splitSlash_append_slash (l : List Char) :
    splitSlash (l ++ ['/']) = splitSlash l ++ [[]] := by
  induction l with
  | nil => simp [splitSlash]
  | cons c rest ih =>
    by_cases h : c = '/'
    · simp [splitSlash, h, ih]
    · cases hs : splitSlash rest with
      | nil => exact absurd hs (splitSlash_ne_nil rest)
      | cons s ss =>
        simp only [List.cons_append, List.append_eq, splitSlash, if_neg h]
        rw [ih, hs]
        simp

/-- The non-empty segments of a path: `path.split("/").filter(Boolean)`. -/
def nonEmptySegments (path : String) : List String :=
  ((splitSlash path.data).map (fun cs => String.mk cs)).filter (fun s => s ≠ "")

/-- `splitDocPath`: pops the trailing non-empty segment as the document id
(`""` when there is none) and rejoins the remaining segments with `/` as the
collection path. -/
def splitDocPath (path : String) : String × String :=
  let parts := nonEmptySegments path
  (String.intercalate "/" parts.dropLast, parts.getLast?.getD "")

theorem string_data_append (s t : String) : (s ++ t).data = s.data ++ t.data := by
  cases s; cases t; rfl

theorem nonEmptySegments_leading_slash (path : String) :
    nonEmptySegments ("/" ++ path) = nonEmptySegments path := by
  unfold nonEmptySegments
  rw [string_data_append]
  show (((splitSlash ('/' :: path.data)).map _).filter _) = _
  rw [splitSlash_slash_cons]
  simp

theorem nonEmptySegments_trailing_slash (path : String) :
    nonEmptySegments (path ++ "/") = nonEmptySegments path := by
  unfold nonEmptySegments
  rw [string_data_append]
  show (((splitSlash (path.data ++ ['/'])).map _).filter _) = _
  rw [splitSlash_append_slash]
  simp

/-! ### Store, snapshots, events

`const store: Map<string, Map<string, DocData>>` becomes an explicit `Store`
value threaded through every operation.  Listener notification (`notify`)
becomes a list of emitted `Event`s (path plus snapshot); feeding those events
to a listener registry is modelled separately by `invocations`. -/

/-- A collection: document id → fields, in insertion order. -/
abbrev Coll := List (String × DocData)

/-- The store: collection path → collection, in insertion order. -/
abbrev Store := List (String × Coll)

/-- `clone` applied to a fields object (the plain-object branch). -/
def cloneData (d : DocData) : DocData := cloneFields d

theorem cloneData_eq (d : DocData) : cloneData d = d := cloneFields_eq d

/-- JS object spread `{...current, ...data}`: `current`'s keys in order with
values overridden by `data` where present, then `data`'s new keys appended in
`data`'s order. -/
def spreadMerge (current data : DocData) : DocData :=
  current.map (fun kv => (kv.1, (jsGet data kv.1).getD kv.2)) ++
    data.filter (fun kv => !(jsHas current kv.1))

/-- `ensureCollection`: lazily create an empty collection at `path`. -/
def ensureCollection (st : Store) (path : String) : Store :=
  if jsHas st path then st else jsSet st path []

/-- The collection at `path` (`store.get(path)`, defaulting to empty). -/
def getColl (st : Store) (path : String) : Coll := (jsGet st path).getD []

/-- The fields stored for document `id` of collection `collectionPath`. -/
def docContents (st : Store) (collectionPath id : String) : Option DocData :=
  jsGet (getColl st collectionPath) id

/-- Whether document `id` is present in collection `collectionPath`. -/
def docExists (st : Store) (collectionPath id : String) : Bool :=
  jsHas (getColl st collectionPath) id

/-- `createDocSnapshot(collectionPath, id, data)`; `dat` holds the captured
`data` argument, `exists()`/`data()` are modelled by `existsb`/`dataFn`. -/
structure DocSnapshot where
  id : String
  dat : Option DocData
  refPath : String
  deriving Repr

def createDocSnapshot (collectionPath id : String) (data : Option DocData) :
    DocSnapshot :=
  ⟨id, data, collectionPath ++ "/" ++ id⟩

/-- `exists: () => Boolean(data)` — a fields object is always truthy. -/
def DocSnapshot.existsb (s : DocSnapshot) : Bool := s.dat.isSome

/-- `data: () => (data ? clone(data) : undefined)`. -/
def DocSnapshot.dataFn (s : DocSnapshot) : Option DocData := s.dat.map cloneData

/-- `createCollectionSnapshot`'s result value: `size`, `empty` and
`docChanges` are derived from `docs`. -/
structure CollSnapshot where
  docs : List DocSnapshot
  refPath : String
  deriving Repr

def CollSnapshot.size (s : CollSnapshot) : Nat := s.docs.length

def CollSnapshot.isEmpty (s : CollSnapshot) : Bool := s.docs.isEmpty

/-- `createCollectionSnapshot` also runs `ensureCollection`, so it returns the
(possibly extended) store alongside the snapshot. -/
def createCollectionSnapshot (st : Store) (collectionPath : String) :
    CollSnapshot × Store :=
  let st' := ensureCollection st collectionPath
  let coll := getColl st' collectionPath
  (⟨coll.map (fun entry => createDocSnapshot collectionPath entry.1 (some entry.2)),
    collectionPath⟩, st')

inductive Snapshot where
  | docSnap (s : DocSnapshot) : Snapshot
  | collSnap (s : CollSnapshot) : Snapshot
  deriving Repr

/-- One `notify(path, snapshot)` call. -/
structure Event where
  path : String
  snap : Snapshot
  deriving Repr

/-- `emitCollection`: one collection-path notification. -/
def emitCollection (st : Store) (collectionPath : String) : List Event × Store :=
  let (snap, st') := createCollectionSnapshot st collectionPath
  ([⟨collectionPath, .collSnap snap⟩], st')

/-- `emitDoc`: a document-path notification first, then the collection-path
notification via `emitCollection`. -/
def emitDoc (st : Store) (collectionPath id : String) : List Event × Store :=
  let st1 := ensureCollection st collectionPath
  let data := jsGet (getColl st1 collectionPath) id
  let docEvent : Event :=
    ⟨collectionPath ++ "/" ++ id, .docSnap (createDocSnapshot collectionPath id data)⟩
  let (collEvents, st2) := emitCollection st1 collectionPath
  (docEvent :: collEvents, st2)

/-- The outcome of a mutation: the new store, the notifications fired, and
the thrown error if any. -/
structure MutResult where
  store : Store
  events : List Event
  error : Option String
  deriving Repr

/-! ### CRUD operations -/

/-- `getDocs(collectionRef)`. -/
def getDocs (st : Store) (collectionPath : String) : CollSnapshot × Store :=
  createCollectionSnapshot st collectionPath

/-- `getDoc(docRef)`. -/
def getDoc (st : Store) (path : String) : DocSnapshot × Store :=
  let (collectionPath, id) := splitDocPath path
  let st1 := ensureCollection st collectionPath
  (createDocSnapshot collectionPath id (jsGet (getColl st1 collectionPath) id), st1)

/-- `addDoc(collectionRef, data)`.  The random `generateId()` result is the
explicit `genId` argument; the returned string is the new document ref's
path. -/
def addDoc (st : Store) (collectionPath : String) (data : DocData)
    (genId : String) : MutResult × String :=
  let st1 := ensureCollection st collectionPath
  let st2 := jsSet st1 collectionPath
    (jsSet (getColl st1 collectionPath) genId (cloneData data))
  let (events, st3) := emitDoc st2 collectionPath genId
  (⟨st3, events, none⟩, collectionPath ++ "/" ++ genId)

/-- `setDoc(docRef, data, options)`: shallow-merge onto the existing fields
when `options.merge` and the document exists, else full replacement. -/
def setDoc (st : Store) (path : String) (data : DocData) (merge : Bool) :
    MutResult :=
  let (collectionPath, id) := splitDocPath path
  let st1 := ensureCollection st collectionPath
  let coll := getColl st1 collectionPath
  let newFields :=
    if merge && jsHas coll id then
      spreadMerge ((jsGet coll id).getD []) (cloneData data)
    else cloneData data
  let st2 := jsSet st1 collectionPath (jsSet coll id newFields)
  let (events, st3) := emitDoc st2 collectionPath id
  ⟨st3, events, none⟩

/-- `updateDoc(docRef, data)`: throws when the document does not exist (after
`ensureCollection` already ran), else shallow-merges and notifies. -/
def updateDoc (st : Store) (path : String) (data : DocData) : MutResult :=
  let (collectionPath, id) := splitDocPath path
  let st1 := ensureCollection st collectionPath
  let coll := getColl st1 collectionPath
  if !(jsHas coll id) then
    ⟨st1, [], some ("Document " ++ path ++ " does not exist")⟩
  else
    let current := (jsGet coll id).getD []
    let st2 := jsSet st1 collectionPath
      (jsSet coll id (spreadMerge current (cloneData data)))
    let (events, st3) := emitDoc st2 collectionPath id
    ⟨st3, events, none⟩

/-- `deleteDoc(docRef)`: idempotent removal, always notifies. -/
def deleteDoc (st : Store) (path : String) : MutResult :=
  let (collectionPath, id) := splitDocPath path
  let st1 := ensureCollection st collectionPath
  let st2 := jsSet st1 collectionPath (jsDelete (getColl st1 collectionPath) id)
  let (events, st3) := emitDoc st2 collectionPath id
  ⟨st3, events, none⟩

/-! ### Seeding (`replaceCollection`) -/

/-- The id chosen for a seed item: `(rawItem[idField] as string | undefined)
?? generateId()`.  `??` falls back exactly on `null`/`undefined`, so a
present string is used as-is while a present `null` and an absent field both
yield the generated id.  A present non-string, non-null value would be used
by the program as the raw `Map` key — a key this string-keyed store cannot
represent — so such items lie outside the model's domain; the seeding
theorem's id characterization therefore carries an explicit `idFieldTyped`
hypothesis confining items to the declared `string | undefined` contract
(plus the `null` fallback). -/
def itemId (genId : String) (idField : String) (item : DocData) : String :=
  match jsGet item idField with
  | some (.vStr s) => s
  | some .vNull => genId
  | some _ => genId
  | none => genId

/-- Whether every item's `idField` value is within the declared
`string | undefined` contract (a string, `null`, or absent): exactly the item
lists for which the program's chosen `Map` keys are representable in the
string-keyed store. -/
def idFieldTyped (idField : String) (items : List DocData) : Bool :=
  items.all (fun item =>
    match jsGet item idField with
    | some (Value.vStr _) => true
    | some Value.vNull => true
    | some _ => false
    | none => true)

/-- `const data = {...rawItem}; if (idField in data) delete data[idField]`. -/
def removeField (key : String) (d : DocData) : DocData :=
  d.filter (fun kv => kv.1 ≠ key)

/-- The `items.forEach` loop: sets each item under its id, stripping the id
field; `gen i` stands for the `generateId()` call of the `i`-th item. -/
def seedColl (idField : String) (gen : Nat → String) :
    Coll → Nat → List DocData → Coll
  | coll, _, [] => coll
  | coll, i, item :: rest =>
    seedColl idField gen
      (jsSet coll (itemId (gen i) idField item) (cloneData (removeField idField item)))
      (i + 1) rest

/-- `replaceCollection(collectionPath, items, options)`: reset the collection
to empty, repopulate from `items`, fire one collection-level notification. -/
def replaceCollection (st : Store) (collectionPath : String)
    (items : List DocData) (idFieldOpt : Option String) (gen : Nat → String) :
    MutResult :=
  let st0 := jsSet st collectionPath []
  let idField := idFieldOpt.getD "id"
  let coll :=
    seedColl idField gen (getColl (ensureCollection st0 collectionPath) collectionPath)
      0 items
  let st1 := jsSet st0 collectionPath coll
  let (events, st2) := emitCollection st1 collectionPath
  ⟨st2, events, none⟩

/-! ### Listener registry

`const listeners: Map<string, Set<SnapshotListener>>`, with listeners named
by numeric ids.  A JS `Set` iterates in insertion order, and `notify` invokes
`subs.forEach(cb => cb(snapshot))`, so playing a list of events against the
registry yields the listener-invocation sequence. -/

abbrev Registry := List (String × List Nat)

def listenersAt (reg : Registry) (path : String) : List Nat :=
  (jsGet reg path).getD []

/-- `onSnapshot`'s registration effect: add the listener to the path's set. -/
def registerListener (reg : Registry) (path : String) (lid : Nat) : Registry :=
  jsSet reg path (listenersAt reg path ++ [lid])

/-- The listener invocations produced by a sequence of `notify` calls. -/
def invocations (reg : Registry) (events : List Event) : List (Nat × Snapshot) :=
  events.flatMap (fun e => (listenersAt reg e.path).map (fun lid => (lid, e.snap)))

/-! ### Map and merge lemmas -/

theorem jsGet_append {V : Type} (l₁ l₂ : List (String × V)) (key : String) :
    jsGet (l₁ ++ l₂) key = (jsGet l₁ key).or (jsGet l₂ key) := by
  induction l₁ with
  | nil => simp [jsGet]
  | cons kv rest ih =>
    obtain ⟨k, v⟩ := kv
    by_cases h : k = key <;> simp [jsGet, h, ih]

theorem jsGet_mapVal {V W : Type} (l : List (String × V)) (f : String → V → W)
    (key : String) :
    jsGet (l.map (fun kv => (kv.1, f kv.1 kv.2))) key = (jsGet l key).map (f key) := by
  induction l with
  | nil => simp [jsGet]
  | cons kv rest ih =>
    obtain ⟨k, v⟩ := kv
    by_cases h : k = key
    · subst h; simp [jsGet, ih]
    · simp [jsGet, h, ih]

theorem jsGet_filter_key {V : Type} (l : List (String × V)) (p : String → Bool)
    (key : String) :
    jsGet (l.filter (fun kv => p kv.1)) key = if p key then jsGet l key else none := by
  induction l with
  | nil => simp [jsGet]
  | cons kv rest ih =>
    obtain ⟨k, v⟩ := kv
    by_cases h : k = key
    · subst h
      by_cases hp : p k <;> simp [jsGet, hp, ih]
    · by_cases hp : p k <;> simp [jsGet, h, hp, ih]

/-- The defining property of the JS spread merge: the merged object binds
each field to the override's value when the override has that field, else to
the base's value. -/
theorem jsGet_spreadMerge (current data : DocData) (key : String) :
    jsGet (spreadMerge current data) key = (jsGet data key).or (jsGet current key) := by
  unfold spreadMerge
  rw [jsGet_append, jsGet_mapVal (f := fun k v => (jsGet data k).getD v),
    jsGet_filter_key (p := fun k => !(jsHas current k))]
  cases hc : jsGet current key with
  | none => simp [jsHas, hc]
  | some v =>
    cases hd : jsGet data key with
    | none => simp [jsHas, hc, hd]
    | some w => simp [jsHas, hc, hd]

theorem jsHas_jsSet_self {V : Type} (m : List (String × V)) (key : String) (v : V) :
    jsHas (jsSet m key v) key = true := by
  simp [jsHas, jsGet_jsSet_self]

theorem jsHas_eq_false_iff {V : Type} (m : List (String × V)) (key : String) :
    jsHas m key = false ↔ jsGet m key = none := by
  unfold jsHas
  cases jsGet m key <;> simp

theorem jsGet_eq_none_of_not_has {V : Type} {m : List (String × V)} {key : String}
    (h : ¬ jsHas m key = true) : jsGet m key = none := by
  cases hb : jsHas m key with
  | false => exact (jsHas_eq_false_iff m key).mp hb
  | true => exact absurd hb h

theorem jsSet_eq_append_of_not_has {V : Type} (m : List (String × V)) (key : String)
    (v : V) (h : jsHas m key = false) : jsSet m key v = m ++ [(key, v)] := by
  rw [jsHas_eq_false_iff] at h
  induction m with
  | nil => simp [jsSet]
  | cons kv rest ih =>
    obtain ⟨k, w⟩ := kv
    by_cases hk : k = key
    · subst hk; simp [jsGet] at h
    · simp only [jsGet, if_neg hk] at h
      simp [jsSet, if_neg hk, ih h]

theorem jsHas_append {V : Type} (l₁ l₂ : List (String × V)) (key : String) :
    jsHas (l₁ ++ l₂) key = (jsHas l₁ key || jsHas l₂ key) := by
  unfold jsHas
  rw [jsGet_append]
  cases jsGet l₁ key <;> cases jsGet l₂ key <;> rfl

/-! ### Store-level lemmas -/

theorem getColl_ensureCollection_self (st : Store) (path : String) :
    getColl (ensureCollection st path) path = getColl st path := by
  unfold ensureCollection getColl
  by_cases h : jsHas st path
  · simp [h]
  · simp [h, jsGet_jsSet_self, jsGet_eq_none_of_not_has h]

theorem jsHas_ensureCollection_self (st : Store) (path : String) :
    jsHas (ensureCollection st path) path = true := by
  unfold ensureCollection
  by_cases h : jsHas st path <;> simp [h, jsHas_jsSet_self]

theorem docContents_ensureCollection (st : Store) (path cp id : String) :
    docContents (ensureCollection st path) cp id = docContents st cp id := by
  unfold docContents ensureCollection getColl
  by_cases h : jsHas st path
  · simp [h]
  · simp only [h, Bool.false_eq_true, if_false]
    by_cases hcp : path = cp
    · subst hcp
      rw [jsGet_jsSet_self, jsGet_eq_none_of_not_has h]
      rfl
    · rw [jsGet_jsSet_other st path cp [] hcp]

theorem ensureCollection_of_has (st : Store) (path : String)
    (h : jsHas st path = true) : ensureCollection st path = st := by
  simp [ensureCollection, h]

/-! ### The `doc()` reference constructor -/

/-- A runtime argument to the variadic `doc(...)`: a db reference, a
collection reference, a document reference, or a raw string segment. -/
inductive DocArg where
  | dbRef : DocArg
  | collRef (path : String) : DocArg
  | docRef (path : String) : DocArg
  | str (s : String) : DocArg
  deriving Repr, DecidableEq

/-- JS `String(x)` / `Array.prototype.join` stringification of an argument:
a string is itself; the plain reference objects have no custom `toString`. -/
def argString : DocArg → String
  | .str s => s
  | .dbRef => "[object Object]"
  | .collRef _ => "[object Object]"
  | .docRef _ => "[object Object]"

def isCollectionRefArg : DocArg → Bool
  | .collRef _ => true
  | _ => false

def isDbRefArg : DocArg → Bool
  | .dbRef => true
  | _ => false

/-- `doc(...args)`: with exactly a collection ref and one more argument, join
the collection path and the stringified id; with a db ref and at least one
further argument, join the stringified tail with `/`; otherwise throw
`Invalid doc() arguments`.  The result is the constructed doc ref's path. -/
def docCtor : List DocArg → Except String String
  | [.collRef p, a2] => .ok (p ++ "/" ++ argString a2)
  | .dbRef :: a2 :: rest => .ok (String.intercalate "/" ((a2 :: rest).map argString))
  | _ => .error "Invalid doc() arguments"

/-! ### Backbone lemma: `emitDoc` on a store that already has the collection -/

theorem emitDoc_of_has (st : Store) (cp id : String) (h : jsHas st cp = true) :
    emitDoc st cp id =
      ([⟨cp ++ "/" ++ id, .docSnap (createDocSnapshot cp id (docContents st cp id))⟩,
        ⟨cp, .collSnap (getDocs st cp).1⟩], st) := by
  unfold emitDoc emitCollection getDocs createCollectionSnapshot docContents
  simp only [ensureCollection_of_has st cp h]

/-- Explicit form of `setDoc`: the stored fields, the two notifications (the
document path first, then the collection path, both with snapshots of the
post-mutation store), and no error. -/
theorem setDoc_eq (st : Store) (path : String) (data : DocData) (merge : Bool)
    (cp id : String) (h : splitDocPath path = (cp, id)) :
    setDoc st path data merge =
      (let coll := getColl st cp
      let newFields :=
        if merge && jsHas coll id then
          spreadMerge ((jsGet coll id).getD []) (cloneData data)
        else cloneData data
      let st2 := jsSet (ensureCollection st cp) cp (jsSet coll id newFields)
      ⟨st2,
        [⟨cp ++ "/" ++ id, .docSnap (createDocSnapshot cp id (docContents st2 cp id))⟩,
         ⟨cp, .collSnap (getDocs st2 cp).1⟩],
        none⟩) := by
  unfold setDoc
  rw [h]
  simp only [getColl_ensureCollection_self]
  rw [emitDoc_of_has _ cp id (jsHas_jsSet_self _ cp _)]

/-- Explicit form of a successful `updateDoc`. -/
theorem updateDoc_eq_of_exists (st : Store) (path : String) (data : DocData)
    (cp id : String) (hsp : splitDocPath path = (cp, id))
    (hex : docExists st cp id = true) :
    updateDoc st path data =
      (let st2 := jsSet (ensureCollection st cp) cp
        (jsSet (getColl st cp) id
          (spreadMerge ((docContents st cp id).getD []) (cloneData data)))
      ⟨st2,
        [⟨cp ++ "/" ++ id, .docSnap (createDocSnapshot cp id (docContents st2 cp id))⟩,
         ⟨cp, .collSnap (getDocs st2 cp).1⟩],
        none⟩) := by
  unfold updateDoc
  rw [hsp]
  simp only [getColl_ensureCollection_self]
  unfold docExists at hex
  simp only [hex, Bool.not_true, Bool.false_eq_true, if_false]
  rw [emitDoc_of_has _ cp id (jsHas_jsSet_self _ cp _)]
  rfl

/-- Explicit form of a failing `updateDoc`: the error is raised after the
lazy collection creation but before any write or notification. -/
theorem updateDoc_eq_of_not_exists (st : Store) (path : String) (data : DocData)
    (cp id : String) (hsp : splitDocPath path = (cp, id))
    (hex : docExists st cp id = false) :
    updateDoc st path data =
      ⟨ensureCollection st cp, [], some ("Document " ++ path ++ " does not exist")⟩ := by
  unfold updateDoc
  rw [hsp]
  simp only [getColl_ensureCollection_self]
  unfold docExists at hex
  simp only [hex, Bool.not_false, if_true]

/-- Explicit form of `addDoc`. -/
theorem addDoc_eq (st : Store) (cp : String) (data : DocData) (genId : String) :
    addDoc st cp data genId =
      (let st2 := jsSet (ensureCollection st cp) cp
        (jsSet (getColl st cp) genId (cloneData data))
      (⟨st2,
        [⟨cp ++ "/" ++ genId, .docSnap (createDocSnapshot cp genId (docContents st2 cp genId))⟩,
         ⟨cp, .collSnap (getDocs st2 cp).1⟩],
        none⟩, cp ++ "/" ++ genId)) := by
  unfold addDoc
  simp only [getColl_ensureCollection_self]
  rw [emitDoc_of_has _ cp genId (jsHas_jsSet_self _ cp _)]

/-- Explicit form of `deleteDoc`. -/
theorem deleteDoc_eq (st : Store) (path : String) (cp id : String)
    (hsp : splitDocPath path = (cp, id)) :
    deleteDoc st path =
      (let st2 := jsSet (ensureCollection st cp) cp (jsDelete (getColl st cp) id)
      ⟨st2,
        [⟨cp ++ "/" ++ id, .docSnap (createDocSnapshot cp id (docContents st2 cp id))⟩,
         ⟨cp, .collSnap (getDocs st2 cp).1⟩],
        none⟩) := by
  unfold deleteDoc
  rw [hsp]
  simp only [getColl_ensureCollection_self]
  rw [emitDoc_of_has _ cp id (jsHas_jsSet_self _ cp _)]

/-! ## Claim theorems -/

/-- C5: for every milliseconds value `m`, `Timestamp.fromMillis m` has
`seconds = ⌊m / 1000⌋` and `nanoseconds = ⌊(m mod 1000) · 10^6⌋` (where
`m mod 1000 = m - 1000·⌊m/1000⌋`), its `toMillis` returns `m` rounded down to
whole milliseconds (`⌊m⌋`), and for integer `m` the round-trip is exact. -/
theorem timestamp_fromMillis_roundtrip :
    (∀ m : ℚ, (Timestamp.fromMillis m).seconds = ⌊m / 1000⌋) ∧
    (∀ m : ℚ, (Timestamp.fromMillis m).nanoseconds =
      ⌊(m - 1000 * (⌊m / 1000⌋ : ℚ)) * 1000000⌋) ∧
    (∀ m : ℚ, (Timestamp.fromMillis m).toMillis = ⌊m⌋) ∧
    (∀ n : ℤ, (Timestamp.fromMillis (n : ℚ)).toMillis = n) := by
  have hsec : ∀ m : ℚ, (Timestamp.fromMillis m).seconds = ⌊m / 1000⌋ :=
    fun m => rfl
  have hnano : ∀ m : ℚ, (Timestamp.fromMillis m).nanoseconds =
      ⌊(m - 1000 * (⌊m / 1000⌋ : ℚ)) * 1000000⌋ := by
    intro m
    show ⌊(m - (⌊m / 1000⌋ : ℚ) * 1000) * 1000000⌋ =
      ⌊(m - 1000 * (⌊m / 1000⌋ : ℚ)) * 1000000⌋
    congr 1
    ring
  have hmillis : ∀ m : ℚ, (Timestamp.fromMillis m).toMillis = ⌊m⌋ := by
    intro m
    show ⌊m / 1000⌋ * 1000 +
      ⌊((⌊(m - (⌊m / 1000⌋ : ℚ) * 1000) * 1000000⌋ : ℤ) : ℚ) / 1000000⌋ = ⌊m⌋
    rw [floor_floor_mul_div]
    have h1 : m - (⌊m / 1000⌋ : ℚ) * 1000 = m - ((⌊m / 1000⌋ * 1000 : ℤ) : ℚ) := by
      push_cast
      ring
    rw [h1, Int.floor_sub_int]
    ring
  refine ⟨hsec, hnano, hmillis, fun n => ?_⟩
  rw [hmillis (n : ℚ), Int.floor_intCast]

/-- C6: splitting a path takes the trailing non-empty segment as the document
id and rejoins the remaining non-empty segments with `/` as the collection
path (empty segments filtered out first); consequently a leading or trailing
`/` addresses the same document as the path without it. -/
theorem splitDocPath_spec :
    (∀ path : String,
      splitDocPath path =
        (String.intercalate "/" (nonEmptySegments path).dropLast,
         (nonEmptySegments path).getLast?.getD "")) ∧
    (∀ path : String, splitDocPath ("/" ++ path) = splitDocPath path) ∧
    (∀ path : String, splitDocPath (path ++ "/") = splitDocPath path) := by
  refine ⟨fun path => rfl, fun path => ?_, fun path => ?_⟩
  · unfold splitDocPath
    rw [nonEmptySegments_leading_slash]
  · unfold splitDocPath
    rw [nonEmptySegments_trailing_slash]

theorem getColl_jsSet_self (st : Store) (cp : String) (c : Coll) :
    getColl (jsSet st cp c) cp = c := by
  simp [getColl, jsGet_jsSet_self]

/-- C1: `updateDoc` on a document id absent from its collection fails with
the not-found error, and on a present id it never fails; `setDoc` always
succeeds and `addDoc` always succeeds under the generated id. -/
theorem update_precondition :
    (∀ (st : Store) (path : String) (data : DocData),
      (updateDoc st path data).error =
        if docExists st (splitDocPath path).1 (splitDocPath path).2 then none
        else some ("Document " ++ path ++ " does not exist")) ∧
    (∀ (st : Store) (path : String) (data : DocData) (merge : Bool),
      (setDoc st path data merge).error = none) ∧
    (∀ (st : Store) (collectionPath : String) (data : DocData) (genId : String),
      (addDoc st collectionPath data genId).1.error = none) := by
  refine ⟨fun st path data => ?_, fun st path data merge => ?_,
    fun st cp data genId => ?_⟩
  · rcases hsp : splitDocPath path with ⟨cp, id⟩
    cases hex : docExists st cp id with
    | true =>
      rw [updateDoc_eq_of_exists st path data cp id hsp hex]
      simp [hsp, hex]
    | false =>
      rw [updateDoc_eq_of_not_exists st path data cp id hsp hex]
      simp [hsp, hex]
  · rcases hsp : splitDocPath path with ⟨cp, id⟩
    rw [setDoc_eq st path data merge cp id hsp]
  · rw [addDoc_eq st cp data genId]

/-- C2: with `merge`, `setDoc` on an existing document stores the one-level
shallow merge of the new fields over the existing ones (new fields win
field-by-field and wholesale, remaining fields are kept); without `merge`, or
when the document is absent, it stores exactly the cloned new fields.
Concretely, `set(ref, {a:1}, {merge:true})` on `{a:0,b:2}` yields `{a:1,b:2}`
and the same call without merge yields `{a:1}`. -/
theorem setDoc_merge_semantics :
    (∀ (st : Store) (path : String) (G F : DocData) (cp id : String),
      splitDocPath path = (cp, id) →
      docContents st cp id = some F →
      ∃ M, docContents (setDoc st path G true).store cp id = some M ∧
        ∀ k, jsGet M k = (jsGet G k).or (jsGet F k)) ∧
    (∀ (st : Store) (path : String) (G : DocData) (cp id : String),
      splitDocPath path = (cp, id) →
      docContents (setDoc st path G false).store cp id = some (cloneData G) ∧
      cloneData G = G) ∧
    (∀ (st : Store) (path : String) (G : DocData) (cp id : String),
      splitDocPath path = (cp, id) →
      docContents st cp id = none →
      docContents (setDoc st path G true).store cp id = some (cloneData G)) ∧
    (docContents (setDoc [("c", [("d", [("a", Value.vNum 0), ("b", Value.vNum 2)])])]
        "c/d" [("a", Value.vNum 1)] true).store "c" "d" =
      some [("a", Value.vNum 1), ("b", Value.vNum 2)]) ∧
    (docContents (setDoc [("c", [("d", [("a", Value.vNum 0), ("b", Value.vNum 2)])])]
        "c/d" [("a", Value.vNum 1)] false).store "c" "d" =
      some [("a", Value.vNum 1)]) := by
  have hstore : ∀ (st : Store) (path : String) (G : DocData) (merge : Bool)
      (cp id : String), splitDocPath path = (cp, id) →
      docContents (setDoc st path G merge).store cp id =
        some (if merge && jsHas (getColl st cp) id then
          spreadMerge ((jsGet (getColl st cp) id).getD []) (cloneData G)
        else cloneData G) := by
    intro st path G merge cp id hsp
    rw [setDoc_eq st path G merge cp id hsp]
    simp only [docContents, getColl_jsSet_self, jsGet_jsSet_self]
  refine ⟨?_, ?_, ?_, ?_, ?_⟩
  · intro st path G F cp id hsp hF
    have hF' : jsGet (getColl st cp) id = some F := hF
    have hhas : jsHas (getColl st cp) id = true := by simp [jsHas, hF']
    refine ⟨spreadMerge F (cloneData G), ?_, ?_⟩
    · rw [hstore st path G true cp id hsp]
      simp [hhas, hF']
    · intro k
      rw [jsGet_spreadMerge, cloneData_eq]
  · intro st path G cp id hsp
    rw [hstore st path G false cp id hsp]
    simp [cloneData_eq]
  · intro st path G cp id hsp hnone
    have hF' : jsGet (getColl st cp) id = none := hnone
    have hhas : jsHas (getColl st cp) id = false := by simp [jsHas, hF']
    rw [hstore st path G true cp id hsp]
    simp [hhas]
  · rw [hstore _ "c/d" _ true "c" "d" rfl]
    rfl
  · rw [hstore _ "c/d" _ false "c" "d" rfl]
    rfl

/-- Witness for C2: the merge branch applied to the concrete store with
`{a:0,b:2}` at `c/d`, merging `{a:1}`. -/
theorem setDoc_merge_semantics_witness :
    ∃ M, docContents (setDoc [("c", [("d", [("a", Value.vNum 0), ("b", Value.vNum 2)])])]
        "c/d" [("a", Value.vNum 1)] true).store "c" "d" = some M ∧
      ∀ k, jsGet M k = (jsGet [("a", Value.vNum 1)] k).or
        (jsGet [("a", Value.vNum 0), ("b", Value.vNum 2)] k) :=
  setDoc_merge_semantics.1 [("c", [("d", [("a", Value.vNum 0), ("b", Value.vNum 2)])])]
    "c/d" [("a", Value.vNum 1)] [("a", Value.vNum 0), ("b", Value.vNum 2)] "c" "d"
    rfl rfl

theorem string_length_append (s t : String) : (s ++ t).length = s.length + t.length := by
  show (s ++ t).data.length = s.data.length + t.data.length
  rw [string_data_append, List.length_append]

/-- A collection path differs from any document path built under it. -/
theorem self_ne_append_slash (cp id : String) : cp ≠ cp ++ "/" ++ id := by
  intro h
  have hlen : cp.length = cp.length + 1 + id.length := by
    conv_lhs => rw [h]
    rw [string_length_append, string_length_append]
    rfl
  omega

/-- C9: a failing `updateDoc` is atomic: it leaves every document's contents
unchanged (only lazily creating the empty collection) and fires no
notification — the error is raised before any mutation or notify. -/
theorem updateDoc_failure_atomic :
    ∀ (st : Store) (path : String) (data : DocData) (cp id : String),
      splitDocPath path = (cp, id) →
      docExists st cp id = false →
      (updateDoc st path data).error.isSome = true ∧
      (updateDoc st path data).events = [] ∧
      (updateDoc st path data).store = ensureCollection st cp ∧
      ∀ cp' id', docContents (updateDoc st path data).store cp' id' =
        docContents st cp' id' := by
  intro st path data cp id hsp hex
  rw [updateDoc_eq_of_not_exists st path data cp id hsp hex]
  exact ⟨rfl, rfl, rfl, fun cp' id' => docContents_ensureCollection st cp cp' id'⟩

/-- Witness for C9: updating the absent document `veh/v1` of the empty
store. -/
theorem updateDoc_failure_atomic_witness :
    (updateDoc [] "veh/v1" [("a", Value.vNum 1)]).error.isSome = true ∧
    (updateDoc [] "veh/v1" [("a", Value.vNum 1)]).events = [] ∧
    (updateDoc [] "veh/v1" [("a", Value.vNum 1)]).store = ensureCollection [] "veh" ∧
    ∀ cp' id', docContents (updateDoc [] "veh/v1" [("a", Value.vNum 1)]).store cp' id' =
      docContents [] cp' id' :=
  updateDoc_failure_atomic [] "veh/v1" [("a", Value.vNum 1)] "veh" "v1" rfl rfl

/-- C8: reading a collection that was never written to never fails and
returns an empty snapshot (`size = 0`, `empty = true`, no docs); the
collection is created lazily (empty) in the store by the read. -/
theorem lazy_collection_read :
    ∀ (st : Store) (collectionPath : String),
      jsGet st collectionPath = none →
      (getDocs st collectionPath).1.docs = [] ∧
      (getDocs st collectionPath).1.size = 0 ∧
      (getDocs st collectionPath).1.isEmpty = true ∧
      (getDocs st collectionPath).2 = st ++ [(collectionPath, [])] ∧
      getColl (getDocs st collectionPath).2 collectionPath = [] := by
  intro st cp hnone
  have hhas : jsHas st cp = false := (jsHas_eq_false_iff st cp).mpr hnone
  have hens : ensureCollection st cp = st ++ [(cp, [])] := by
    unfold ensureCollection
    rw [hhas]
    simp [jsSet_eq_append_of_not_has st cp [] hhas]
  have hcoll : getColl (ensureCollection st cp) cp = [] := by
    rw [getColl_ensureCollection_self]
    simp [getColl, hnone]
  refine ⟨?_, ?_, ?_, ?_, ?_⟩
  · simp [getDocs, createCollectionSnapshot, hcoll]
  · simp [getDocs, createCollectionSnapshot, hcoll, CollSnapshot.size]
  · simp [getDocs, createCollectionSnapshot, hcoll, CollSnapshot.isEmpty]
  · simp [getDocs, createCollectionSnapshot, hens]
  · simp [getDocs, createCollectionSnapshot, hcoll]

/-- Witness for C8: reading `newcoll` on the empty store. -/
theorem lazy_collection_read_witness :
    (getDocs [] "newcoll").1.docs = [] ∧
    (getDocs [] "newcoll").1.size = 0 ∧
    (getDocs [] "newcoll").1.isEmpty = true ∧
    (getDocs [] "newcoll").2 = [] ++ [("newcoll", [])] ∧
    getColl (getDocs [] "newcoll").2 "newcoll" = [] :=
  lazy_collection_read [] "newcoll" rfl

/-- C10: collection snapshots list documents in the collection's stored
(first-insertion) order; overwriting an existing id via `setDoc` or
`updateDoc` keeps the id sequence unchanged, and writing a fresh id appends
it at the end. -/
theorem insertion_order_preserved :
    (∀ (st : Store) (collectionPath : String),
      ((getDocs st collectionPath).1.docs).map DocSnapshot.id =
        (getColl st collectionPath).map Prod.fst) ∧
    (∀ (st : Store) (path : String) (data : DocData) (merge : Bool) (cp id : String),
      splitDocPath path = (cp, id) →
      docExists st cp id = true →
      (getColl (setDoc st path data merge).store cp).map Prod.fst =
        (getColl st cp).map Prod.fst) ∧
    (∀ (st : Store) (path : String) (data : DocData) (cp id : String),
      splitDocPath path = (cp, id) →
      docExists st cp id = true →
      (getColl (updateDoc st path data).store cp).map Prod.fst =
        (getColl st cp).map Prod.fst) ∧
    (∀ (st : Store) (path : String) (data : DocData) (merge : Bool) (cp id : String),
      splitDocPath path = (cp, id) →
      docExists st cp id = false →
      (getColl (setDoc st path data merge).store cp).map Prod.fst =
        (getColl st cp).map Prod.fst ++ [id]) := by
  refine ⟨?_, ?_, ?_, ?_⟩
  · intro st cp
    show ((getColl (ensureCollection st cp) cp).map
      (fun e => createDocSnapshot cp e.1 (some e.2))).map DocSnapshot.id = _
    rw [List.map_map, getColl_ensureCollection_self]
    rfl
  · intro st path data merge cp id hsp hex
    rw [setDoc_eq st path data merge cp id hsp]
    show ((getColl (jsSet (ensureCollection st cp) cp _) cp).map Prod.fst) = _
    rw [getColl_jsSet_self, keys_jsSet]
    unfold docExists at hex
    rw [hex]
    rfl
  · intro st path data cp id hsp hex
    rw [updateDoc_eq_of_exists st path data cp id hsp hex]
    show ((getColl (jsSet (ensureCollection st cp) cp _) cp).map Prod.fst) = _
    rw [getColl_jsSet_self, keys_jsSet]
    unfold docExists at hex
    rw [hex]
    rfl
  · intro st path data merge cp id hsp hex
    rw [setDoc_eq st path data merge cp id hsp]
    show ((getColl (jsSet (ensureCollection st cp) cp _) cp).map Prod.fst) = _
    rw [getColl_jsSet_self, keys_jsSet]
    unfold docExists at hex
    rw [hex]
    rfl

/-- Witness for C10: overwriting `c/d` in a two-document collection keeps the
id order; writing the fresh `c/e` appends it. -/
theorem insertion_order_preserved_witness :
    ((getColl (setDoc [("c", [("d", []), ("e", [])])] "c/d"
        [("a", Value.vNum 1)] false).store "c").map Prod.fst =
      (getColl [("c", [("d", []), ("e", [])])] "c").map Prod.fst) ∧
    ((getColl (setDoc [("c", [("d", [])])] "c/e"
        [("a", Value.vNum 1)] false).store "c").map Prod.fst =
      (getColl [("c", [("d", [])])] "c").map Prod.fst ++ ["e"]) :=
  ⟨insertion_order_preserved.2.1 [("c", [("d", []), ("e", [])])] "c/d"
      [("a", Value.vNum 1)] false "c" "d" rfl rfl,
    insertion_order_preserved.2.2.2 [("c", [("d", [])])] "c/e"
      [("a", Value.vNum 1)] false "c" "e" rfl rfl⟩

/-- C3 counterexample: with a collection subscriber (listener 1 on `veh`)
registered before a document subscriber (listener 2 on `veh/v1`), an
`updateDoc` on `veh/v1` invokes the document subscriber first — the
invocation order is `[2, 1]`, not the registration order `[1, 2]` the claim
states. -/
theorem notification_order_counterexample :
    (invocations (registerListener (registerListener [] "veh" 1) "veh/v1" 2)
        (updateDoc [("veh", [("v1", [("a", Value.vNum 0)])])] "veh/v1"
          [("a", Value.vNum 1)]).events).map Prod.fst = [2, 1] ∧
    (invocations (registerListener (registerListener [] "veh" 1) "veh/v1" 2)
        (updateDoc [("veh", [("v1", [("a", Value.vNum 0)])])] "veh/v1"
          [("a", Value.vNum 1)]).events).map Prod.fst ≠ [1, 2] := by
  refine ⟨rfl, ?_⟩
  intro h
  have h' : ([2, 1] : List Nat) = [1, 2] := by
    rw [← h]
    rfl
  simp at h'

/-- C3 (amended): every document-level mutation (`addDoc`, `setDoc`,
`updateDoc`, `deleteDoc`) fires exactly two notifications, one on the exact
document path and one on the owning collection path, each with a freshly
built post-mutation snapshot; the document-path notification comes first, so
in the two-subscriber scenario the document subscriber is invoked before the
collection subscriber (each exactly once, with post-update snapshots). -/
theorem notification_fan_out :
    (∀ (st : Store) (collectionPath : String) (data : DocData) (genId : String),
      (addDoc st collectionPath data genId).1.events =
        [⟨collectionPath ++ "/" ++ genId,
          .docSnap (createDocSnapshot collectionPath genId
            (docContents (addDoc st collectionPath data genId).1.store
              collectionPath genId))⟩,
         ⟨collectionPath,
          .collSnap (getDocs (addDoc st collectionPath data genId).1.store
            collectionPath).1⟩]) ∧
    (∀ (st : Store) (path : String) (data : DocData) (merge : Bool) (cp id : String),
      splitDocPath path = (cp, id) →
      (setDoc st path data merge).events =
        [⟨cp ++ "/" ++ id, .docSnap (createDocSnapshot cp id
            (docContents (setDoc st path data merge).store cp id))⟩,
         ⟨cp, .collSnap (getDocs (setDoc st path data merge).store cp).1⟩]) ∧
    (∀ (st : Store) (path : String) (data : DocData) (cp id : String),
      splitDocPath path = (cp, id) →
      docExists st cp id = true →
      (updateDoc st path data).events =
        [⟨cp ++ "/" ++ id, .docSnap (createDocSnapshot cp id
            (docContents (updateDoc st path data).store cp id))⟩,
         ⟨cp, .collSnap (getDocs (updateDoc st path data).store cp).1⟩]) ∧
    (∀ (st : Store) (path : String) (cp id : String),
      splitDocPath path = (cp, id) →
      (deleteDoc st path).events =
        [⟨cp ++ "/" ++ id, .docSnap (createDocSnapshot cp id
            (docContents (deleteDoc st path).store cp id))⟩,
         ⟨cp, .collSnap (getDocs (deleteDoc st path).store cp).1⟩]) ∧
    (∀ (st : Store) (path : String) (data : DocData) (cp id : String),
      splitDocPath path = (cp, id) →
      docExists st cp id = true →
      invocations (registerListener (registerListener [] cp 1) (cp ++ "/" ++ id) 2)
          (updateDoc st path data).events =
        [(2, .docSnap (createDocSnapshot cp id
            (docContents (updateDoc st path data).store cp id))),
         (1, .collSnap (getDocs (updateDoc st path data).store cp).1)]) := by
  refine ⟨?_, ?_, ?_, ?_, ?_⟩
  · intro st cp data genId
    rw [addDoc_eq st cp data genId]
  · intro st path data merge cp id hsp
    rw [setDoc_eq st path data merge cp id hsp]
  · intro st path data cp id hsp hex
    rw [updateDoc_eq_of_exists st path data cp id hsp hex]
  · intro st path cp id hsp
    rw [deleteDoc_eq st path cp id hsp]
  · intro st path data cp id hsp hex
    have hne : cp ≠ cp ++ "/" ++ id := self_ne_append_slash cp id
    rw [updateDoc_eq_of_exists st path data cp id hsp hex]
    simp [invocations, registerListener, listenersAt, jsSet, jsGet, hne, Ne.symm hne]

/-- Witness for C3 (amended): the updateDoc fan-out and the two-subscriber
scenario at the concrete store holding `veh2/v1`. -/
theorem notification_fan_out_witness :
    ((updateDoc [("veh2", [("v1", [])])] "veh2/v1" [("b", Value.vNum 7)]).events =
      [⟨"veh2" ++ "/" ++ "v1", .docSnap (createDocSnapshot "veh2" "v1"
          (docContents (updateDoc [("veh2", [("v1", [])])] "veh2/v1"
            [("b", Value.vNum 7)]).store "veh2" "v1"))⟩,
       ⟨"veh2", .collSnap (getDocs (updateDoc [("veh2", [("v1", [])])] "veh2/v1"
          [("b", Value.vNum 7)]).store "veh2").1⟩]) ∧
    (invocations (registerListener (registerListener [] "veh2" 1)
          ("veh2" ++ "/" ++ "v1") 2)
        (updateDoc [("veh2", [("v1", [])])] "veh2/v1" [("b", Value.vNum 7)]).events =
      [(2, .docSnap (createDocSnapshot "veh2" "v1"
          (docContents (updateDoc [("veh2", [("v1", [])])] "veh2/v1"
            [("b", Value.vNum 7)]).store "veh2" "v1"))),
       (1, .collSnap (getDocs (updateDoc [("veh2", [("v1", [])])] "veh2/v1"
          [("b", Value.vNum 7)]).store "veh2").1)]) :=
  ⟨notification_fan_out.2.2.1 [("veh2", [("v1", [])])] "veh2/v1"
      [("b", Value.vNum 7)] "veh2" "v1" rfl rfl,
    notification_fan_out.2.2.2.2 [("veh2", [("v1", [])])] "veh2/v1"
      [("b", Value.vNum 7)] "veh2" "v1" rfl rfl⟩

/-- Explicit form of `replaceCollection`: the collection is rebuilt from the
items alone (starting from empty) and one collection-level notification
carries a snapshot of the final store. -/
theorem replaceCollection_eq (st : Store) (cp : String) (items : List DocData)
    (idFieldOpt : Option String) (gen : Nat → String) :
    replaceCollection st cp items idFieldOpt gen =
      (let coll := seedColl (idFieldOpt.getD "id") gen [] 0 items
      let st1 := jsSet (jsSet st cp []) cp coll
      ⟨st1, [⟨cp, .collSnap (getDocs st1 cp).1⟩], none⟩) := by
  unfold replaceCollection emitCollection getDocs createCollectionSnapshot
  simp only [ensureCollection_of_has, jsHas_jsSet_self, getColl_jsSet_self]

theorem jsGet_removeField_self (idField : String) (item : DocData) :
    jsGet (removeField idField item) idField = none := by
  induction item with
  | nil => simp [removeField, jsGet]
  | cons kv rest ih =>
    obtain ⟨k, v⟩ := kv
    by_cases h : k = idField
    · simp [removeField, h] at ih ⊢
      exact ih
    · simp [removeField, h] at ih ⊢
      simp [jsGet, h]
      exact ih

/-- The seeding loop on fresh, pairwise-distinct ids appends the items in
order. -/
theorem seedColl_eq_append (idField : String) (gen : Nat → String) :
    ∀ (items : List DocData) (i : Nat) (coll : Coll),
      (∀ p ∈ items.enumFrom i, jsHas coll (itemId (gen p.1) idField p.2) = false) →
      ((items.enumFrom i).map (fun p => itemId (gen p.1) idField p.2)).Nodup →
      seedColl idField gen coll i items =
        coll ++ (items.enumFrom i).map
          (fun p => (itemId (gen p.1) idField p.2,
            cloneData (removeField idField p.2))) := by
  intro items
  induction items with
  | nil =>
    intro i coll _ _
    simp [seedColl]
  | cons item rest ih =>
    intro i coll hfresh hnodup
    have hcons : List.enumFrom i (item :: rest) =
        (i, item) :: List.enumFrom (i + 1) rest := rfl
    have hfresh0 : jsHas coll (itemId (gen i) idField item) = false :=
      hfresh (i, item) (by rw [hcons]; exact List.mem_cons_self _ _)
    rw [hcons] at hnodup
    simp only [List.map_cons, List.nodup_cons] at hnodup
    obtain ⟨hnotin, hnodup'⟩ := hnodup
    show seedColl idField gen
        (jsSet coll (itemId (gen i) idField item)
          (cloneData (removeField idField item))) (i + 1) rest = _
    rw [jsSet_eq_append_of_not_has coll _ _ hfresh0]
    rw [ih (i + 1) _ ?_ hnodup']
    · rw [hcons]
      simp [List.append_assoc]
    · intro p hp
      rw [jsHas_append]
      have h1 : jsHas coll (itemId (gen p.1) idField p.2) = false :=
        hfresh p (by rw [hcons]; exact List.mem_cons_of_mem _ hp)
      have hne : itemId (gen p.1) idField p.2 ≠ itemId (gen i) idField item := by
        intro heq
        exact hnotin (heq ▸ List.mem_map_of_mem _ hp)
      have h2 : jsHas [(itemId (gen i) idField item,
          cloneData (removeField idField item))] (itemId (gen p.1) idField p.2) = false := by
        simp [jsHas, jsGet, Ne.symm hne]
      rw [h1, h2]
      rfl

/-- C4: `replaceCollection` discards the collection's previous contents and
repopulates it from the item list in order — each stored id is the item's
(string) `idField` value when present, else the generated id; the `idField`
is stripped from the stored fields; and exactly one collection-level
notification fires, after the whole replacement, with no per-item and no
document-path notification.  Concretely, seeding `vehicles` with
`[{id:"v1",make:"Honda"}]` stores exactly one document `v1 ↦ {make:"Honda"}`. -/
theorem replace_collection_semantics :
    (∀ (st : Store) (cp : String) (items : List DocData) (idFieldOpt : Option String)
      (gen : Nat → String),
      (replaceCollection st cp items idFieldOpt gen).error = none ∧
      (replaceCollection st cp items idFieldOpt gen).events =
        [⟨cp, .collSnap (getDocs (replaceCollection st cp items idFieldOpt gen).store cp).1⟩]) ∧
    (∀ (st st' : Store) (cp : String) (items : List DocData) (idFieldOpt : Option String)
      (gen : Nat → String),
      getColl (replaceCollection st cp items idFieldOpt gen).store cp =
        getColl (replaceCollection st' cp items idFieldOpt gen).store cp) ∧
    (∀ (st : Store) (cp : String) (items : List DocData) (idFieldOpt : Option String)
      (gen : Nat → String),
      idFieldTyped (idFieldOpt.getD "id") items = true →
      ((items.enum.map (fun p => itemId (gen p.1) (idFieldOpt.getD "id") p.2)).Nodup →
        getColl (replaceCollection st cp items idFieldOpt gen).store cp =
          items.enum.map (fun p => (itemId (gen p.1) (idFieldOpt.getD "id") p.2,
            removeField (idFieldOpt.getD "id") p.2)))) ∧
    (∀ (idField : String) (item : DocData),
      jsGet (removeField idField item) idField = none) ∧
    (∀ (g idField : String) (item : DocData) (s : String),
      jsGet item idField = some (Value.vStr s) → itemId g idField item = s) ∧
    (∀ (g idField : String) (item : DocData),
      jsGet item idField = some Value.vNull → itemId g idField item = g) ∧
    (∀ (g idField : String) (item : DocData),
      jsGet item idField = none → itemId g idField item = g) ∧
    (∀ gen : Nat → String,
      getColl (replaceCollection [] "vehicles"
        [[("id", Value.vStr "v1"), ("make", Value.vStr "Honda")]] none gen).store
        "vehicles" = [("v1", [("make", Value.vStr "Honda")])]) := by
  refine ⟨?_, ?_, ?_, ?_, ?_, ?_, ?_, ?_⟩
  · intro st cp items idFieldOpt gen
    rw [replaceCollection_eq st cp items idFieldOpt gen]
    exact ⟨rfl, rfl⟩
  · intro st st' cp items idFieldOpt gen
    rw [replaceCollection_eq st cp items idFieldOpt gen,
      replaceCollection_eq st' cp items idFieldOpt gen]
    simp only [getColl_jsSet_self]
  · intro st cp items idFieldOpt gen _ hnodup
    rw [replaceCollection_eq st cp items idFieldOpt gen]
    show getColl (jsSet (jsSet st cp []) cp _) cp = _
    rw [getColl_jsSet_self]
    rw [seedColl_eq_append (idFieldOpt.getD "id") gen items 0 []
      (fun p _ => by simp [jsHas, jsGet]) hnodup]
    simp [cloneData_eq, List.enum]
  · exact jsGet_removeField_self
  · intro g idField item s h
    simp [itemId, h]
  · intro g idField item h
    simp [itemId, h]
  · intro g idField item h
    simp [itemId, h]
  · intro gen
    rfl

/-- Witness for C4: the repopulation characterization applied to the concrete
one-item seed of `vehicles`. -/
theorem replace_collection_semantics_witness :
    getColl (replaceCollection [] "vehicles"
        [[("id", Value.vStr "v1"), ("make", Value.vStr "Honda")]] none
        (fun _ => "gid")).store "vehicles" =
      ([[("id", Value.vStr "v1"), ("make", Value.vStr "Honda")]].enum.map
        (fun p => (itemId ((fun _ => "gid") p.1) ((none : Option String).getD "id") p.2,
          removeField ((none : Option String).getD "id") p.2))) :=
  replace_collection_semantics.2.2.1 [] "vehicles"
    [[("id", Value.vStr "v1"), ("make", Value.vStr "Honda")]] none (fun _ => "gid")
    rfl (by simp)

/-- C7: `doc()` succeeds exactly when called with a collection reference plus
one identifier (yielding the collection path joined with the identifier by
`/`) or with a db reference plus at least one segment (yielding the segments
joined by `/`); with fewer than two arguments, or a first argument that is
not a recognized reference, it raises the invalid-argument error. -/
theorem doc_ctor_spec :
    (∀ (p s : String), docCtor [DocArg.collRef p, DocArg.str s] =
      Except.ok (p ++ "/" ++ s)) ∧
    (∀ (a2 : DocArg) (rest : List DocArg),
      docCtor (DocArg.dbRef :: a2 :: rest) =
        Except.ok (String.intercalate "/" ((a2 :: rest).map argString))) ∧
    (docCtor [] = Except.error "Invalid doc() arguments") ∧
    (∀ a : DocArg, docCtor [a] = Except.error "Invalid doc() arguments") ∧
    (∀ (s : String) (rest : List DocArg),
      docCtor (DocArg.str s :: rest) = Except.error "Invalid doc() arguments") ∧
    (∀ (p : String) (rest : List DocArg),
      docCtor (DocArg.docRef p :: rest) = Except.error "Invalid doc() arguments") ∧
    (∀ args : List DocArg,
      (∃ out, docCtor args = Except.ok out) ↔
        ((∃ p a2, args = [DocArg.collRef p, a2]) ∨
          (∃ a2 rest, args = DocArg.dbRef :: a2 :: rest))) := by
  refine ⟨fun p s => rfl, fun a2 rest => rfl, rfl, ?_, ?_, ?_, ?_⟩
  · intro a
    cases a <;> rfl
  · intro s rest
    cases rest with
    | nil => rfl
    | cons b bs => cases bs <;> rfl
  · intro p rest
    cases rest with
    | nil => rfl
    | cons b bs => cases bs <;> rfl
  · intro args
    rcases args with _ | ⟨a, _ | ⟨b, rest⟩⟩
    · simp [docCtor]
    · cases a <;> simp [docCtor]
    · cases a with
      | dbRef => simp [docCtor]
      | collRef p =>
        cases rest with
        | nil => simp [docCtor]
        | cons c cs => simp [docCtor]
      | docRef p =>
        cases rest with
        | nil => simp [docCtor]
        | cons c cs => simp [docCtor]
      | str s =>
        cases rest with
        | nil => simp [docCtor]
        | cons c cs => simp [docCtor]

end MockFirestore
